import Mathlib

/-!
Verification of the Simon game repository.

Shallow embedding of `src/game.js` (the round controller, input handling,
high-score persistence and presentation timing) and of the static file
server (`server.js`, the unnamed Node source).  JavaScript module-level
variables become fields of `Simon.GameState`; `setTimeout` scheduling is
made explicit, either as a returned flag (`handlePlayerPress`) or as
pending-timer counters on `Simon.Sys`.  `Math.random`-generated pad colors
are passed in as explicit arguments.  Times are in milliseconds as `Nat`;
the JS test `now - lastTap < 100` is written equivalently as
`now < lastTap + 100`.
-/

namespace Simon

/-- The four pad colors (`PADS` in game.js). -/
inductive Color
  | green
  | red
  | yellow
  | blue
deriving DecidableEq, Repr

/-- The constant `PADS = ["green", "red", "yellow", "blue"]`. -/
def PADS : List Color := [Color.green, Color.red, Color.yellow, Color.blue]

/-- The mutable module-level game state of game.js:
`sequence`, `playerIndex`, `level`, `isPlayingSequence`, `highScore`,
`lastTap`.  (`muted` and the DOM/audio state carry no game logic and are
omitted; `audio` calls have no effect on these fields.) -/
structure GameState where
  sequence : List Color
  playerIndex : Nat
  level : Nat
  isPlayingSequence : Bool
  highScore : Nat
  lastTap : Nat
deriving DecidableEq, Repr

/-- game.js `saveHighScore(v)`: `highScore = Math.max(highScore, v)`,
then persisted to localStorage and rendered. -/
def saveHighScore (v : Nat) (s : GameState) : GameState :=
  { s with highScore := max s.highScore v }

/-- Entry of game.js `playSequence`: sets `isPlayingSequence = true`.
The timed loop then flashes each color; its completion is the separate
`endPresentation` event. -/
def beginPresentation (s : GameState) : GameState :=
  { s with isPlayingSequence := true }

/-- Exit of game.js `playSequence`: `isPlayingSequence = false`. -/
def endPresentation (s : GameState) : GameState :=
  { s with isPlayingSequence := false }

/-- game.js `nextRound()`, with the `Math.random` pad choice passed in as
`c`: push `c`, set `level = sequence.length`, `saveHighScore(level - 1)`,
then start the presentation. -/
def nextRound (c : Color) (s : GameState) : GameState :=
  let seq := s.sequence ++ [c]
  beginPresentation
    (saveHighScore (seq.length - 1) { s with sequence := seq, level := seq.length })

/-- game.js `startGame()`: reset `sequence`, `playerIndex`, `level`.
It also schedules `nextRound` 350 ms later; that pending timer is
recorded at the `Sys` level. -/
def startGame (s : GameState) : GameState :=
  { s with sequence := [], playerIndex := 0, level := 0 }

/-- game.js `gameOver()`: error cue, `saveHighScore(level)`, show the
overlay with `level`, then reset `sequence`, `playerIndex`, `level` and
clear `isPlayingSequence`. -/
def gameOver (s : GameState) : GameState :=
  { saveHighScore s.level s with
      sequence := [], playerIndex := 0, level := 0, isPlayingSequence := false }

/-- game.js `handlePlayerPress(color)` at time `now`.  Returns the new
state together with whether a `nextRound` timer (450 ms) was scheduled.
Mirrors the source order: debounce check, `lastTap = now`, ignore while
`isPlayingSequence`, ignore while the sequence is empty, then compare
against `sequence[playerIndex]` (an out-of-range index reads
`undefined`, which never equals a color, hence the mismatch branch). -/
def handlePlayerPress (c : Color) (now : Nat) (s : GameState) : GameState × Bool :=
  if now < s.lastTap + 100 then (s, false)
  else
    let s1 := { s with lastTap := now }
    if s1.isPlayingSequence then (s1, false)
    else if s1.sequence.length = 0 then (s1, false)
    else if s1.sequence[s1.playerIndex]? = some c then
      let s2 := { s1 with playerIndex := s1.playerIndex + 1 }
      if s2.playerIndex = s2.sequence.length then
        ({ s2 with playerIndex := 0 }, true)
      else (s2, false)
    else (gameOver s1, false)

/-- Keyboard keys relevant to the window keydown handler. -/
inductive Key
  | a
  | s
  | d
  | f
  | space
  | enter
  | other
deriving DecidableEq, Repr

/-- The table `keyMap` mapping keys a, s, d, f to the four pad colors. -/
def keyMap : Key → Option Color
  | Key.a => some Color.green
  | Key.s => some Color.red
  | Key.d => some Color.yellow
  | Key.f => some Color.blue
  | _ => none

/-- The window `keydown` handler: if the key is in `keyMap`, press that
pad; then, if the key is Space or Enter and `level === 0`, call
`startGame` (which additionally schedules a `nextRound` timer).  The
Bool is the pad-press `nextRound` schedule flag. -/
def windowKeydown (k : Key) (now : Nat) (s : GameState) : GameState × Bool :=
  let p := match keyMap k with
    | some c => handlePlayerPress c now s
    | none => (s, false)
  if (k = Key.space ∨ k = Key.enter) ∧ p.1.level = 0 then (startGame p.1, p.2) else p

/-- The start button click handler is bound directly to `startGame`:
it runs unconditionally, in every state. -/
def startBtnClick (s : GameState) : GameState := startGame s

/-- The retry button click handler: hide the overlay, then `startGame()`. -/
def retryBtnClick (s : GameState) : GameState := startGame s

/-- game.js `playSequence`:
`const baseDelay = Math.max(500 - seq.length * 8, 160)`. -/
def baseDelay (len : Nat) : Int := max (500 - 8 * (len : Int)) 160

/-- The inter-color delay awaited after step `i` of a presentation of a
sequence of length `len`: `Math.max(baseDelay - i * 8, 140)`. -/
def stepDelay (len i : Nat) : Int := max (baseDelay len - 8 * (i : Int)) 140

/-- A game state together with the numbers of pending `setTimeout`
callbacks: `nextRound` timers (scheduled by `startGame`, 350 ms, and by a
completed round inside `handlePlayerPress`, 450 ms) and
presentation-completion continuations.  game.js never calls
`clearTimeout` on any of these, so a reset does not remove them. -/
structure Sys where
  gs : GameState
  timersNextRound : Nat
  timersEndPresent : Nat
deriving DecidableEq, Repr

/-- Pressing a pad at time `now`: may schedule one `nextRound` timer. -/
def sysPress (c : Color) (now : Nat) (y : Sys) : Sys :=
  let r := handlePlayerPress c now y.gs
  { y with gs := r.1,
           timersNextRound := y.timersNextRound + (if r.2 then 1 else 0) }

/-- Clicking the start button: `startGame` runs and schedules one more
`nextRound` timer (350 ms); pending timers are not cancelled. -/
def sysStartClick (y : Sys) : Sys :=
  { y with gs := startGame y.gs, timersNextRound := y.timersNextRound + 1 }

/-- A pending `nextRound` timer fires with generated color `c`; this
starts a presentation, whose completion becomes pending. -/
def sysFireNextRound (c : Color) (y : Sys) : Sys :=
  { gs := nextRound c y.gs,
    timersNextRound := y.timersNextRound - 1,
    timersEndPresent := y.timersEndPresent + 1 }

/-- A pending presentation completes: `isPlayingSequence = false`. -/
def sysFireEndPresent (y : Sys) : Sys :=
  { y with gs := endPresentation y.gs,
           timersEndPresent := y.timersEndPresent - 1 }

/-- The externally triggerable operations of a play session, for stating
properties quantified over every operation. -/
inductive Op
  | press (c : Color) (now : Nat)
  | startClick
  | keydown (k : Key) (now : Nat)
  | retryClick
  | fireNextRound (c : Color)
  | fireEndPresent
deriving DecidableEq, Repr

/-- Effect of one operation on the game state. -/
def applyOp : Op → GameState → GameState
  | Op.press c now, s => (handlePlayerPress c now s).1
  | Op.startClick, s => startBtnClick s
  | Op.keydown k now, s => (windowKeydown k now s).1
  | Op.retryClick, s => retryBtnClick s
  | Op.fireNextRound c, s => nextRound c s
  | Op.fireEndPresent, s => endPresentation s

/-- The fresh page-load state with stored high score `h`
(`highScore = Number(localStorage.getItem(...) || 0)`, `lastTap = 0`). -/
def initialState (h : Nat) : GameState :=
  ⟨[], 0, 0, false, h, 0⟩

/-- Fresh system: no pending timers. -/
def sys0 : Sys := ⟨initialState 0, 0, 0⟩

/-- A run of pad presses, each with its time: fold `handlePlayerPress`,
counting the `nextRound` timers scheduled along the way. -/
def replay : List (Color × Nat) → GameState → GameState × Nat
  | [], s => (s, 0)
  | (c, t) :: rest, s =>
    let r := handlePlayerPress c t s
    let r2 := replay rest r.1
    (r2.1, (if r.2 then 1 else 0) + r2.2)

/-- Press times separated by at least the 100 ms debounce window,
starting at least 100 ms after `last`. -/
def spaced (last : Nat) : List Nat → Bool
  | [] => true
  | t :: ts => decide (last + 100 ≤ t) && spaced t ts

/-- Last element of a time list, defaulting to `d`. -/
def lastOf (d : Nat) : List Nat → Nat
  | [] => d
  | t :: ts => lastOf t ts

/-- One full round: the pending `nextRound` timer fires with generated
color `c`, the presentation runs to completion, and the player replays
the whole (new) sequence correctly, pressing at times `ts`. -/
def doRound (c : Color) (ts : List Nat) (s : GameState) : GameState × Nat :=
  replay ((nextRound c s).sequence.zip ts) (endPresentation (nextRound c s))

/-- A run of successive successful rounds with their generated colors
and press times; also counts round-advance timers scheduled. -/
def doRounds : List (Color × List Nat) → GameState → GameState × Nat
  | [], s => (s, 0)
  | (c, ts) :: rest, s =>
    let r := doRound c ts s
    let r2 := doRounds rest r.1
    (r2.1, r.2 + r2.2)

/-- Validity of the press-time lists of a run of rounds: each round has
one press per element of the sequence of that round (whose length grows
by one each round from `len`), debounce-spaced from the previous press. -/
def roundsValid (last len : Nat) : List (Color × List Nat) → Bool
  | [] => true
  | (_, ts) :: rest =>
    decide (ts.length = len + 1) && spaced last ts &&
      roundsValid (lastOf last ts) (len + 1) rest

/-! ### The static file server (the unnamed Node source) -/

/-- A press within 100 ms of the last recorded press is dropped whole:
no field changes, nothing is scheduled. -/
lemma press_dropped (c : Color) (t : Nat) (s : GameState)
    (h : t < s.lastTap + 100) : handlePlayerPress c t s = (s, false) := by
  simp [handlePlayerPress, h]

/-- A press outside the debounce window records its time in `lastTap`,
whatever else it does. -/
lemma press_lastTap (c : Color) (t : Nat) (s : GameState)
    (h : s.lastTap + 100 ≤ t) : ((handlePlayerPress c t s).1).lastTap = t := by
  simp only [handlePlayerPress]
  rw [if_neg (by omega)]
  split_ifs <;> simp [gameOver, saveHighScore]

/-- No press path ever lowers `highScore`. -/
lemma press_highScore_le (c : Color) (t : Nat) (s : GameState) :
    s.highScore ≤ ((handlePlayerPress c t s).1).highScore := by
  simp only [handlePlayerPress]
  split_ifs <;> simp [gameOver, saveHighScore, le_max_left]

/-- The `startGame` reset does not touch `highScore`. -/
lemma startGame_highScore (s : GameState) :
    (startGame s).highScore = s.highScore := rfl

/-- The window keydown handler never lowers `highScore`. -/
lemma keydown_highScore_le (k : Key) (t : Nat) (s : GameState) :
    s.highScore ≤ ((windowKeydown k t s).1).highScore := by
  cases k <;>
    simp only [windowKeydown, keyMap] <;>
    split_ifs <;>
    simp [startGame, press_highScore_le]

/-- The high-score update of `nextRound`: the pushed sequence has length
one more than before, and `saveHighScore(level - 1)` records the length
of the sequence the player has just completed. -/
lemma nextRound_highScore (c : Color) (s : GameState) :
    (nextRound c s).highScore = max s.highScore s.sequence.length := by
  simp [nextRound, beginPresentation, saveHighScore]

/-- The sequence after `nextRound`: exactly one generated color appended. -/
lemma nextRound_sequence (c : Color) (s : GameState) :
    (nextRound c s).sequence = s.sequence ++ [c] := by
  simp [nextRound, beginPresentation, saveHighScore]

/-! ### The claims -/

/-- C5: while the state is Presenting (`isPlayingSequence`), no pad press
causes an input transition: the sequence, the expected index, the level
and the presenting flag are all unchanged, and no round advance is
scheduled. -/
theorem c5_no_input_while_presenting (c : Color) (t : Nat) (s : GameState)
    (h : s.isPlayingSequence = true) :
    (handlePlayerPress c t s).1.sequence = s.sequence ∧
    (handlePlayerPress c t s).1.playerIndex = s.playerIndex ∧
    (handlePlayerPress c t s).1.level = s.level ∧
    (handlePlayerPress c t s).1.isPlayingSequence = true ∧
    (handlePlayerPress c t s).2 = false := by
  simp only [handlePlayerPress]
  split_ifs <;> simp_all

/-- Witness for C5 at a concrete Presenting state. -/
theorem c5_no_input_while_presenting_witness :
    (⟨[Color.green], 0, 1, true, 0, 0⟩ : GameState).isPlayingSequence = true ∧
    ((handlePlayerPress Color.green 500 ⟨[Color.green], 0, 1, true, 0, 0⟩).1.sequence
        = [Color.green] ∧
      (handlePlayerPress Color.green 500 ⟨[Color.green], 0, 1, true, 0, 0⟩).2 = false) :=
  ⟨rfl,
    (c5_no_input_while_presenting Color.green 500 ⟨[Color.green], 0, 1, true, 0, 0⟩ rfl).1,
    (c5_no_input_while_presenting Color.green 500 ⟨[Color.green], 0, 1, true, 0, 0⟩ rfl).2.2.2.2⟩

/-- C10: a press that beats the debounce but is ignored (because a
presentation is running or the sequence is empty) changes nothing except
`lastTap`, which it sets to its own time; consequently any press within
100 ms after it, correct or not, is dropped by the debounce. -/
theorem c10_ignored_press_still_records_time (c : Color) (t : Nat) (s : GameState)
    (hdb : s.lastTap + 100 ≤ t)
    (hign : s.isPlayingSequence = true ∨ s.sequence = []) :
    (handlePlayerPress c t s).1 = { s with lastTap := t } ∧
    (handlePlayerPress c t s).2 = false ∧
    ∀ (s2 : GameState) (c2 : Color) (t2 : Nat), s2.lastTap = t → t2 < t + 100 →
      handlePlayerPress c2 t2 s2 = (s2, false) := by
  have key : handlePlayerPress c t s = ({ s with lastTap := t }, false) := by
    simp only [handlePlayerPress]
    rw [if_neg (by omega)]
    rcases hign with h | h <;> simp [h]
  refine ⟨by rw [key], by rw [key], ?_⟩
  intro s2 c2 t2 h2 ht2
  exact press_dropped c2 t2 s2 (by rw [h2]; omega)

/-- Witness for C10: the press at t = 500 during a presentation of
`[green]` is ignored but recorded; the presentation then ends, and in
the resulting AwaitingInput state the press of green at t = 560 — the
correct color — is dropped by the debounce without any effect. -/
theorem c10_ignored_press_still_records_time_witness :
    ((⟨[Color.green], 0, 1, true, 0, 0⟩ : GameState).lastTap + 100 ≤ 500 ∧
      (handlePlayerPress Color.red 500 ⟨[Color.green], 0, 1, true, 0, 0⟩).1
        = ⟨[Color.green], 0, 1, true, 0, 500⟩) ∧
    (endPresentation ⟨[Color.green], 0, 1, true, 0, 500⟩
        = ⟨[Color.green], 0, 1, false, 0, 500⟩ ∧
      (⟨[Color.green], 0, 1, false, 0, 500⟩ : GameState).isPlayingSequence = false ∧
      (⟨[Color.green], 0, 1, false, 0, 500⟩ : GameState).sequence[0]? = some Color.green ∧
      handlePlayerPress Color.green 560 (⟨[Color.green], 0, 1, false, 0, 500⟩ : GameState)
        = (⟨[Color.green], 0, 1, false, 0, 500⟩, false)) :=
  ⟨⟨by decide,
      (c10_ignored_press_still_records_time Color.red 500 ⟨[Color.green], 0, 1, true, 0, 0⟩
          (by decide) (Or.inl rfl)).1⟩,
    rfl, rfl, rfl,
    (c10_ignored_press_still_records_time Color.red 500 ⟨[Color.green], 0, 1, true, 0, 0⟩
        (by decide) (Or.inl rfl)).2.2
      ⟨[Color.green], 0, 1, false, 0, 500⟩ Color.green 560 rfl (by decide)⟩

/-- C8: the inter-color presentation delay is non-increasing in the
sequence length, non-increasing in the step position, and bounded below
by the fixed positive floor of 140 ms. -/
theorem c8_delay_monotone_and_floored :
    (∀ len1 len2 i : Nat, len1 ≤ len2 → stepDelay len2 i ≤ stepDelay len1 i) ∧
    (∀ len i1 i2 : Nat, i1 ≤ i2 → stepDelay len i2 ≤ stepDelay len i1) ∧
    (∀ len i : Nat, 140 ≤ stepDelay len i) := by
  refine ⟨?_, ?_, ?_⟩ <;> intros <;>
    simp only [stepDelay, baseDelay, max_def] <;> split_ifs <;> omega

/-- Witness for C8 at concrete lengths and steps. -/
theorem c8_delay_monotone_and_floored_witness :
    (4 ≤ 10 ∧ stepDelay 10 2 ≤ stepDelay 4 2) ∧
    (3 ≤ 7 ∧ stepDelay 5 7 ≤ stepDelay 5 3) ∧
    140 ≤ stepDelay 60 100 :=
  ⟨⟨by decide, c8_delay_monotone_and_floored.1 4 10 2 (by decide)⟩,
    ⟨by decide, c8_delay_monotone_and_floored.2.1 5 3 7 (by decide)⟩,
    c8_delay_monotone_and_floored.2.2 60 100⟩

/-- C1: in any AwaitingInput state (no presentation running, non-empty
sequence, expected index in range), a press that beats the debounce and
whose color differs from `sequence[playerIndex]` goes straight to
`gameOver`, whatever the index is; afterwards the in-memory round state
is reset: empty sequence, `playerIndex = 0`, `level = 0`. -/
theorem c1_mismatch_always_fatal (s : GameState) (c : Color) (t : Nat)
    (hplay : s.isPlayingSequence = false)
    (hne : s.sequence ≠ [])
    (_hidx : s.playerIndex < s.sequence.length)
    (hdb : s.lastTap + 100 ≤ t)
    (hmis : s.sequence[s.playerIndex]? ≠ some c) :
    handlePlayerPress c t s = (gameOver { s with lastTap := t }, false) ∧
    (handlePlayerPress c t s).1.sequence = [] ∧
    (handlePlayerPress c t s).1.playerIndex = 0 ∧
    (handlePlayerPress c t s).1.level = 0 := by
  have h1 : handlePlayerPress c t s = (gameOver { s with lastTap := t }, false) := by
    simp only [handlePlayerPress]
    rw [if_neg (by omega)]
    simp [hplay, hne, hmis]
  refine ⟨h1, ?_, ?_, ?_⟩ <;> rw [h1] <;> simp [gameOver, saveHighScore]

/-- Witness for C1: mismatch at expected index 1 of a length-2 sequence. -/
theorem c1_mismatch_always_fatal_witness :
    ((⟨[Color.green, Color.red], 1, 2, false, 5, 0⟩ : GameState).sequence ≠ [] ∧
      (⟨[Color.green, Color.red], 1, 2, false, 5, 0⟩ : GameState).playerIndex < 2) ∧
    (handlePlayerPress Color.yellow 200 ⟨[Color.green, Color.red], 1, 2, false, 5, 0⟩
        = (gameOver ⟨[Color.green, Color.red], 1, 2, false, 5, 200⟩, false) ∧
      (handlePlayerPress Color.yellow 200
          ⟨[Color.green, Color.red], 1, 2, false, 5, 0⟩).1.sequence = [] ∧
      (handlePlayerPress Color.yellow 200
          ⟨[Color.green, Color.red], 1, 2, false, 5, 0⟩).1.level = 0) :=
  ⟨⟨by decide, by decide⟩,
    (c1_mismatch_always_fatal ⟨[Color.green, Color.red], 1, 2, false, 5, 0⟩
        Color.yellow 200 rfl (by decide) (by decide) (by decide) (by decide)).1,
    (c1_mismatch_always_fatal ⟨[Color.green, Color.red], 1, 2, false, 5, 0⟩
        Color.yellow 200 rfl (by decide) (by decide) (by decide) (by decide)).2.1,
    (c1_mismatch_always_fatal ⟨[Color.green, Color.red], 1, 2, false, 5, 0⟩
        Color.yellow 200 rfl (by decide) (by decide) (by decide) (by decide)).2.2.2⟩

/-- C2: after a game over the stored high score is the max of the
previous high score and the level reached; after a completed round the
round advance stores the max of the previous high score and the length
of the sequence just completed; no operation of a play session ever
lowers the high score; and from stored high score 5, a game over at
level 3 leaves the high score at 5. -/
theorem c2_high_score_max_monotone :
    (∀ s : GameState, (gameOver s).highScore = max s.highScore s.level) ∧
    (∀ (c : Color) (s : GameState),
        (nextRound c s).highScore = max s.highScore s.sequence.length) ∧
    (∀ (op : Op) (s : GameState), s.highScore ≤ (applyOp op s).highScore) ∧
    (gameOver ⟨[Color.green, Color.red, Color.yellow], 2, 3, false, 5, 1000⟩).highScore = 5 := by
  refine ⟨?_, ?_, ?_, by decide⟩
  · intro s; simp [gameOver, saveHighScore]
  · intro c s; exact nextRound_highScore c s
  · intro op s
    cases op with
    | press c now => exact press_highScore_le c now s
    | startClick => exact le_of_eq (startGame_highScore s).symm
    | keydown k now => exact keydown_highScore_le k now s
    | retryClick => exact le_of_eq (startGame_highScore s).symm
    | fireNextRound c =>
        show s.highScore ≤ (nextRound c s).highScore
        rw [nextRound_highScore]; exact le_max_left _ _
    | fireEndPresent => exact le_refl _

/-- C3 fails on the code: the start button is bound to `startGame`
unconditionally, so activating it in an AwaitingInput state (here:
sequence `[green]`, level 1, no presentation running) does change the
game state — it wipes the sequence and resets the level. -/
theorem c3_counterexample_start_button_mid_game :
    startBtnClick ⟨[Color.green], 0, 1, false, 0, 0⟩
        ≠ (⟨[Color.green], 0, 1, false, 0, 0⟩ : GameState) ∧
    (startBtnClick ⟨[Color.green], 0, 1, false, 0, 0⟩).sequence = [] ∧
    (startBtnClick ⟨[Color.green], 0, 1, false, 0, 0⟩).level = 0 ∧
    (⟨[Color.green], 0, 1, false, 0, 0⟩ : GameState).level = 1 ∧
    (⟨[Color.green], 0, 1, false, 0, 0⟩ : GameState).isPlayingSequence = false := by
  decide

/-- C3 amended: the designated start key (Space or Enter) starts the
game only when `level = 0` and has no effect otherwise; from Idle the
start control leads to Presenting with a one-element sequence once the
scheduled first round fires; the start and retry buttons, however, call
`startGame` unconditionally in every state. -/
theorem c3_amended_start_key_guarded_button_not :
    (∀ (k : Key) (t : Nat) (s : GameState), (k = Key.space ∨ k = Key.enter) →
        s.level ≠ 0 → windowKeydown k t s = (s, false)) ∧
    (∀ (t : Nat) (s : GameState), s.level = 0 →
        windowKeydown Key.space t s = (startGame s, false) ∧
        windowKeydown Key.enter t s = (startGame s, false)) ∧
    (∀ (c : Color) (s : GameState),
        nextRound c (startGame s) = ⟨[c], 0, 1, true, s.highScore, s.lastTap⟩) ∧
    (∀ s : GameState, startBtnClick s = startGame s ∧ retryBtnClick s = startGame s) := by
  refine ⟨?_, ?_, ?_, fun s => ⟨rfl, rfl⟩⟩
  · intro k t s hk hlvl
    rcases hk with h | h <;> subst h <;> simp [windowKeydown, keyMap, hlvl]
  · intro t s hlvl
    constructor <;> simp [windowKeydown, keyMap, hlvl]
  · intro c s
    simp [nextRound, startGame, beginPresentation, saveHighScore]

/-- Witness for C3 amended: the space key is inert at level 2, starts
the game at level 0, and the first round then presents `[green]`. -/
theorem c3_amended_start_key_guarded_button_not_witness :
    ((⟨[Color.green, Color.red], 0, 2, false, 0, 0⟩ : GameState).level ≠ 0 ∧
      windowKeydown Key.space 50 ⟨[Color.green, Color.red], 0, 2, false, 0, 0⟩
        = (⟨[Color.green, Color.red], 0, 2, false, 0, 0⟩, false)) ∧
    ((initialState 7).level = 0 ∧
      windowKeydown Key.space 50 (initialState 7) = (startGame (initialState 7), false)) ∧
    nextRound Color.green (startGame (initialState 7))
      = ⟨[Color.green], 0, 1, true, 7, 0⟩ :=
  ⟨⟨by decide,
      c3_amended_start_key_guarded_button_not.1 Key.space 50
        ⟨[Color.green, Color.red], 0, 2, false, 0, 0⟩ (Or.inl rfl) (by decide)⟩,
    ⟨rfl, (c3_amended_start_key_guarded_button_not.2.1 50 (initialState 7) rfl).1⟩,
    c3_amended_start_key_guarded_button_not.2.2.1 Color.green (initialState 7)⟩

/-- Trace for C6, reached from a fresh page: start, first round presents
`[green]`, the player replays it with an accepted press at t = 200, and
the second round is now presenting `[green, red]`. -/
def c6mid : Sys :=
  sysFireNextRound Color.red
    (sysPress Color.green 200
      (sysFireEndPresent (sysFireNextRound Color.green (sysStartClick sys0))))

/-- Continuation of the C6 trace: a press at t = 1000 is ignored by the
Presenting guard (but recorded in `lastTap`), then the presentation
ends, leaving an AwaitingInput state. -/
def c6wait : Sys := sysFireEndPresent (sysPress Color.yellow 1000 c6mid)

/-- C6 fails on the code: dropping is keyed to the previously recorded
press, not the previously accepted one.  In this reachable trace the
last accepted input was at t = 200; a press at t = 1000 during the
presentation is ignored yet recorded; and the then-correct press of
green at t = 1050 — 850 ms after the last accepted input, so by the
claim it should be processed normally — is dropped without any effect. -/
theorem c6_counterexample_drop_after_ignored_press :
    c6mid.gs = ⟨[Color.green, Color.red], 0, 2, true, 1, 200⟩ ∧
    (sysPress Color.yellow 1000 c6mid).gs
      = ⟨[Color.green, Color.red], 0, 2, true, 1, 1000⟩ ∧
    c6wait.gs = ⟨[Color.green, Color.red], 0, 2, false, 1, 1000⟩ ∧
    200 + 100 ≤ 1050 ∧
    c6wait.gs.sequence[c6wait.gs.playerIndex]? = some Color.green ∧
    sysPress Color.green 1050 c6wait = c6wait := by
  decide

/-- C6 amended: a press is dropped exactly when it arrives within 100 ms
of the previously recorded press, where every press outside the window
is recorded in `lastTap` — including presses that are then ignored
because a presentation is running or the sequence is empty.  A dropped
press leaves all state unchanged and schedules nothing; of two presses
within 100 ms of each other at most one has any effect. -/
theorem c6_amended_debounce_on_recorded_press :
    (∀ (c : Color) (t : Nat) (s : GameState), t < s.lastTap + 100 →
        handlePlayerPress c t s = (s, false)) ∧
    (∀ (c : Color) (t : Nat) (s : GameState), s.lastTap + 100 ≤ t →
        ((handlePlayerPress c t s).1).lastTap = t) ∧
    (∀ (c1 c2 : Color) (t1 t2 : Nat) (s : GameState), t2 < t1 + 100 →
        handlePlayerPress c2 t2 ((handlePlayerPress c1 t1 s).1) =
            ((handlePlayerPress c1 t1 s).1, false) ∨
          handlePlayerPress c1 t1 s = (s, false)) := by
  refine ⟨press_dropped, press_lastTap, ?_⟩
  intro c1 c2 t1 t2 s h
  by_cases h1 : t1 < s.lastTap + 100
  · exact Or.inr (press_dropped c1 t1 s h1)
  · refine Or.inl (press_dropped c2 t2 _ ?_)
    rw [press_lastTap c1 t1 s (by omega)]
    exact h

/-- Witness for C6 amended: a press at t = 50 from `lastTap = 0` is
dropped; one at t = 150 is recorded; two presses 50 ms apart cause at
most one effect. -/
theorem c6_amended_debounce_on_recorded_press_witness :
    (50 < (initialState 0).lastTap + 100 ∧
      handlePlayerPress Color.green 50 (initialState 0) = (initialState 0, false)) ∧
    ((initialState 0).lastTap + 100 ≤ 150 ∧
      ((handlePlayerPress Color.green 150 (initialState 0)).1).lastTap = 150) ∧
    (handlePlayerPress Color.red 200 ((handlePlayerPress Color.green 150 (initialState 0)).1) =
        ((handlePlayerPress Color.green 150 (initialState 0)).1, false) ∨
      handlePlayerPress Color.green 150 (initialState 0) = (initialState 0, false)) :=
  ⟨⟨by decide, c6_amended_debounce_on_recorded_press.1 Color.green 50 (initialState 0) (by decide)⟩,
    ⟨by decide, c6_amended_debounce_on_recorded_press.2.1 Color.green 150 (initialState 0) (by decide)⟩,
    c6_amended_debounce_on_recorded_press.2.2 Color.green Color.red 150 200 (initialState 0) (by decide)⟩

/-- Trace for C7, reached from a fresh page: start, round one presents
`[green]`, the player completes it at t = 100 (scheduling the round
advance, 450 ms out), and then clicks the start button during that
window.  game.js never calls `clearTimeout`, so after the reset TWO
`nextRound` timers are pending: the new game's (350 ms) and the stale
one (450 ms). -/
def c7reset : Sys :=
  sysStartClick
    (sysPress Color.green 100
      (sysFireEndPresent (sysFireNextRound Color.green (sysStartClick sys0))))

/-- C7 is violated by the code (a bug against the spec's cancellation
requirement): after the reset the stale round-advance timer is still
pending, and when it fires — 100 ms after the new game's own first
round began — it appends an extra element to the new game's sequence,
leaving level 2 though the player completed no round of the new game. -/
theorem c7_stale_timer_corrupts_new_game :
    c7reset.gs.sequence = [] ∧
    c7reset.gs.level = 0 ∧
    c7reset.timersNextRound = 2 ∧
    (sysFireNextRound Color.red c7reset).gs.sequence = [Color.red] ∧
    (sysFireNextRound Color.red c7reset).gs.level = 1 ∧
    (sysFireNextRound Color.yellow (sysFireNextRound Color.red c7reset)).gs.sequence
      = [Color.red, Color.yellow] ∧
    (sysFireNextRound Color.yellow (sysFireNextRound Color.red c7reset)).gs.level = 2 := by
  decide

/-- Correct replay of the not-yet-replayed suffix of the sequence: with
the presentation over and presses debounce-spaced, every press matches,
the index walks to the end of the sequence and is reset to 0, exactly
one round advance is scheduled, and nothing else changes but `lastTap`. -/
lemma replay_run (suffix : List Color) :
    ∀ (pre : List Color) (ts : List Nat) (s : GameState),
    s.isPlayingSequence = false →
    s.sequence = pre ++ suffix →
    s.playerIndex = pre.length →
    suffix ≠ [] →
    ts.length = suffix.length →
    spaced s.lastTap ts = true →
    replay (suffix.zip ts) s =
      ({ s with playerIndex := 0, lastTap := lastOf s.lastTap ts }, 1) := by
  induction suffix with
  | nil => intro pre ts s _ _ _ hne _ _; exact absurd rfl hne
  | cons c rest ih =>
    intro pre ts s hplay hseq hidx _ hlen hsp
    cases ts with
    | nil => simp at hlen
    | cons t ts2 =>
      have hsp' : (decide (s.lastTap + 100 ≤ t) && spaced t ts2) = true := hsp
      rw [Bool.and_eq_true, decide_eq_true_eq] at hsp'
      obtain ⟨hdb, hsp2⟩ := hsp'
      have hne2 : s.sequence ≠ [] := by rw [hseq]; simp
      have hget : s.sequence[pre.length]? = some c := by
        rw [hseq, List.getElem?_append_right (le_refl pre.length)]
        simp
      cases rest with
      | nil =>
        have hts2 : ts2 = [] := by
          cases ts2 with
          | nil => rfl
          | cons a b => simp at hlen
        subst hts2
        have hlenseq : s.sequence.length = pre.length + 1 := by rw [hseq]; simp
        have hr : handlePlayerPress c t s
            = ({ s with lastTap := t, playerIndex := 0 }, true) := by
          simp only [handlePlayerPress]
          rw [if_neg (by omega)]
          simp [hplay, hne2, hidx, hget, hlenseq]
        simp [replay, hr, lastOf]
      | cons c2 rest2 =>
        have hneq : ¬(pre.length + 1 = s.sequence.length) := by
          rw [hseq]; simp
        have hr : handlePlayerPress c t s
            = ({ s with lastTap := t, playerIndex := pre.length + 1 }, false) := by
          simp only [handlePlayerPress]
          rw [if_neg (by omega)]
          simp [hplay, hne2, hidx, hget, hneq]
        have hrec := ih (pre ++ [c]) ts2
            { s with lastTap := t, playerIndex := pre.length + 1 }
            hplay (by rw [hseq]; simp) (by simp) (by simp)
            (by simpa using hlen) hsp2
        rw [List.zip_cons_cons]
        simp only [replay, hr]
        simp only [List.zip] at hrec
        simpa [lastOf] using hrec

/-- One successful round from a round boundary: the advance appends the
generated color, presents it, and the full correct replay ends with the
index reset, exactly one further advance scheduled, and the high score
raised to the length of the previously completed sequence. -/
lemma doRound_run (c : Color) (ts : List Nat) (s : GameState)
    (hidx : s.playerIndex = 0)
    (hlen : ts.length = s.sequence.length + 1)
    (hsp : spaced s.lastTap ts = true) :
    doRound c ts s =
      (⟨s.sequence ++ [c], 0, s.sequence.length + 1, false,
          max s.highScore s.sequence.length, lastOf s.lastTap ts⟩, 1) := by
  have hst : endPresentation (nextRound c s) =
      ⟨s.sequence ++ [c], s.playerIndex, s.sequence.length + 1, false,
        max s.highScore s.sequence.length, s.lastTap⟩ := by
    simp [nextRound, beginPresentation, endPresentation, saveHighScore]
  unfold doRound
  rw [nextRound_sequence, hst]
  have h := replay_run (s.sequence ++ [c]) [] ts
      ⟨s.sequence ++ [c], s.playerIndex, s.sequence.length + 1, false,
        max s.highScore s.sequence.length, s.lastTap⟩
      rfl (by simp) (by simp [hidx]) (by simp) (by simp [hlen]) hsp
  simpa using h

/-- Running successive successful rounds from any round boundary:
the sequence is extended by exactly the generated colors in order, the
index returns to 0, and one advance is scheduled per round. -/
lemma doRounds_run (rounds : List (Color × List Nat)) :
    ∀ s : GameState, s.playerIndex = 0 →
    roundsValid s.lastTap s.sequence.length rounds = true →
    (doRounds rounds s).1.sequence = s.sequence ++ rounds.map Prod.fst ∧
    (doRounds rounds s).1.playerIndex = 0 ∧
    (doRounds rounds s).2 = rounds.length := by
  induction rounds with
  | nil => intro s hidx _; simpa [doRounds] using hidx
  | cons r rest ih =>
    obtain ⟨c, ts⟩ := r
    intro s hidx hv
    have hv' : (decide (ts.length = s.sequence.length + 1) && spaced s.lastTap ts &&
        roundsValid (lastOf s.lastTap ts) (s.sequence.length + 1) rest) = true := hv
    rw [Bool.and_eq_true, Bool.and_eq_true, decide_eq_true_eq] at hv'
    obtain ⟨⟨hlen, hsp⟩, hrest⟩ := hv'
    have hvr : roundsValid
        ((⟨s.sequence ++ [c], 0, s.sequence.length + 1, false,
            max s.highScore s.sequence.length, lastOf s.lastTap ts⟩ : GameState)).lastTap
        ((⟨s.sequence ++ [c], 0, s.sequence.length + 1, false,
            max s.highScore s.sequence.length, lastOf s.lastTap ts⟩ : GameState)).sequence.length
        rest = true := by
      simpa using hrest
    have hrec := ih _ rfl hvr
    simp only [doRounds]
    rw [doRound_run c ts s hidx hlen hsp]
    obtain ⟨h1, h2, h3⟩ := hrec
    refine ⟨?_, by simpa using h2, ?_⟩
    · simp only at h1 ⊢
      rw [h1]; simp
    · simp only at h3 ⊢
      rw [h3]; simp [Nat.add_comm]

/-- C4: from a just-reset game, N successfully completed rounds leave a
sequence of length exactly N — it is precisely the list of the N
generated colors in order, so every earlier element is unchanged in
place — with exactly one round-advance scheduled per completion, and
each round advance appends exactly one generated color to the end. -/
theorem c4_sequence_length_after_rounds (rounds : List (Color × List Nat)) (s : GameState)
    (hseq : s.sequence = [])
    (hidx : s.playerIndex = 0)
    (hv : roundsValid s.lastTap 0 rounds = true) :
    (doRounds rounds s).1.sequence = rounds.map Prod.fst ∧
    (doRounds rounds s).1.sequence.length = rounds.length ∧
    (doRounds rounds s).2 = rounds.length ∧
    ∀ (c : Color) (s2 : GameState), (nextRound c s2).sequence = s2.sequence ++ [c] := by
  have h := doRounds_run rounds s hidx (by simpa [hseq] using hv)
  obtain ⟨h1, _, h3⟩ := h
  rw [hseq] at h1
  simp only [List.nil_append] at h1
  exact ⟨h1, by rw [h1]; simp, h3, nextRound_sequence⟩

/-- Witness for C4: two completed rounds from a fresh start — round one
presents `[green]` and is replayed at t = 100, round two presents
`[green, red]` and is replayed at t = 200, 300 — leave the sequence
`[green, red]`: length 2, first element still green. -/
theorem c4_sequence_length_after_rounds_witness :
    roundsValid 0 0 [(Color.green, [100]), (Color.red, [200, 300])] = true ∧
    (doRounds [(Color.green, [100]), (Color.red, [200, 300])] (initialState 0)).1.sequence
      = [Color.green, Color.red] ∧
    (doRounds [(Color.green, [100]), (Color.red, [200, 300])] (initialState 0)).2 = 2 :=
  ⟨by decide,
    by simpa using
      (c4_sequence_length_after_rounds [(Color.green, [100]), (Color.red, [200, 300])]
        (initialState 0) rfl rfl (by decide)).1,
    by simpa using
      (c4_sequence_length_after_rounds [(Color.green, [100]), (Color.red, [200, 300])]
        (initialState 0) rfl rfl (by decide)).2.2.1⟩

end Simon
